import Mathlib

/-!
Verification of the go-neb services against their specification.

The repository has three services: the weblate and freifunk command
services (embedded here directly from their Go source) and the rssbot
feed-polling core, whose implementation file is absent from the visible
sources (only its test is present); the polling core is therefore
modelled from the specification, as marked on each such definition.
-/

namespace GoNeb

/-- Chat message value mirroring gomatrix.TextMessage: a message type tag
and a plain-text body. -/
structure TextMessage where
  msgtype : String
  body : String
deriving DecidableEq, Repr

namespace Weblate

/-- HTTP response as far as makeWeblateRequest inspects it: the numeric
status code and the raw body. -/
structure HTTPResponse where
  statusCode : Int
  body : String
deriving DecidableEq, Repr

/-- Embeds cmdWeblateStatus from services/weblate/weblate.go: any argument
list whose length differs from one is rejected with the error string
"Too many arguments"; otherwise a fixed placeholder notice is returned. -/
def cmdWeblateStatus (args : List String) : Except String TextMessage :=
  if args.length ≠ 1 then Except.error "Too many arguments"
  else Except.ok ⟨"m.notice", "Not yet implemented"⟩

/-- The error string produced by makeWeblateRequest for a non-2xx status,
mirroring fmt.Errorf("Failed to decode response (HTTP %d)", code). -/
def weblateErrorMsg (code : Int) : String :=
  "Failed to decode response (HTTP " ++ toString code ++ ")"

/-- Embeds makeWeblateRequest from services/weblate/weblate.go. The two
network steps (http.NewRequest and httpClient.Do) are inputs: each either
fails with an error or succeeds; on a response whose status code is below
200 or at least 300 the function logs and returns an error built by
weblateErrorMsg, otherwise it returns the response. -/
def makeWeblateRequest (newRequestResult : Except String Unit)
    (doResult : Except String HTTPResponse) : Except String HTTPResponse :=
  match newRequestResult with
  | Except.error e => Except.error e
  | Except.ok _ =>
    match doResult with
    | Except.error e => Except.error e
    | Except.ok res =>
      if res.statusCode < 200 ∨ res.statusCode ≥ 300 then
        Except.error (weblateErrorMsg res.statusCode)
      else
        Except.ok res

end Weblate

namespace Freifunk

/-- One entry of the freifunk API directory object, as far as
getCommunities inspects it: the JSON object key and whether the value
carries a nodeMaps field (jsonparser.Get succeeding on "nodeMaps"). -/
structure FFCommunity where
  key : String
  hasNodeMaps : Bool
deriving DecidableEq, Repr

/-- Embeds one invocation of the ObjectEach handler inside getCommunities
from services/freifunk/freifunk.go: a key is appended when the nodeMaps
lookup on its value succeeds; the first appended key replaces the empty
accumulator, later ones are appended after ", ". -/
def foldStep (communities : String) (c : FFCommunity) : String :=
  if c.hasNodeMaps then
    if communities == "" then c.key else communities ++ ", " ++ c.key
  else communities

/-- Embeds the accumulation performed by getCommunities over the whole
directory object, in object order. -/
def communitiesFold (dir : List FFCommunity) : String :=
  dir.foldl foldStep ""

/-- Embeds getCommunities from services/freifunk/freifunk.go: it returns a
notice whose body is the accumulated community string. -/
def getCommunities (dir : List FFCommunity) : TextMessage :=
  ⟨"m.notice", communitiesFold dir⟩

/-- Stated from the claim wording, not from the source: joining a list of
strings with the separator ", ". Used to compare the source accumulation
against the claim that included keys are joined with ", ". -/
def joinComma : List String → String
  | [] => ""
  | [k] => k
  | k :: k2 :: rest => k ++ ", " ++ joinComma (k2 :: rest)

/-- The keys of the directory entries whose value carries a nodeMaps
field, in object order. -/
def includedKeys (dir : List FFCommunity) : List String :=
  (dir.filter (fun c => c.hasNodeMaps)).map (fun c => c.key)

end Freifunk

namespace Rssbot

/-- Boolean prefix test on character lists, used to state substring
properties of delivered message bodies. -/
def listStartsWith : List Char → List Char → Bool
  | [], _ => true
  | _ :: _, [] => false
  | a :: as, b :: bs => a == b && listStartsWith as bs

/-- Boolean substring test on character lists: the needle occurs
contiguously somewhere in the haystack. -/
def listInfixOf (needle : List Char) : List Char → Bool
  | [] => listStartsWith needle []
  | b :: bs => listStartsWith needle (b :: bs) || listInfixOf needle bs

/-- Parser state of the HTML numeric character reference decoder: scanning
plain text, just after an ampersand, or inside the digits of a reference
(remembering the consumed digit characters and their numeric value). -/
inductive DecState where
  | normal : DecState
  | amp : DecState
  | hash : List Char → Nat → DecState

/-- Modelled from the spec: the Feed Fetcher of the absent rssbot source
decodes HTML character references embedded in item text to their Unicode
code points. This loop decodes numeric references of the form of an
ampersand, a hash, decimal digits and a semicolon, leaving all other text
unchanged. -/
def decodeLoop : DecState → List Char → List Char
  | DecState.normal, [] => []
  | DecState.amp, [] => ['&']
  | DecState.hash pending _, [] => '&' :: '#' :: pending.reverse
  | DecState.normal, c :: rest =>
    if c == '&' then decodeLoop DecState.amp rest
    else c :: decodeLoop DecState.normal rest
  | DecState.amp, c :: rest =>
    if c == '#' then decodeLoop (DecState.hash [] 0) rest
    else if c == '&' then '&' :: decodeLoop DecState.amp rest
    else '&' :: c :: decodeLoop DecState.normal rest
  | DecState.hash pending acc, c :: rest =>
    if c.isDigit then
      decodeLoop (DecState.hash (c :: pending) (acc * 10 + (c.toNat - 48))) rest
    else if c == ';' && !pending.isEmpty && decide (acc < 1114112) then
      Char.ofNat acc :: decodeLoop DecState.normal rest
    else if c == '&' then
      ('&' :: '#' :: pending.reverse) ++ decodeLoop DecState.amp rest
    else
      ('&' :: '#' :: pending.reverse) ++ (c :: decodeLoop DecState.normal rest)

/-- Decoding of HTML numeric character references in a string. -/
def decodeEntities (s : String) : String :=
  ⟨decodeLoop DecState.normal s.data⟩

/-- One parsed feed item: identifier, title, link and optional publish
time in Unix seconds (spec section 3, FeedItem). -/
structure FeedItem where
  id : String
  title : String
  link : String
  publishedAt : Option Nat
deriving DecidableEq, Repr

/-- Per-feed polling state (spec section 3, FeedConfig): target rooms,
poll interval, next poll time and the seen-items map from item identifier
to last-seen publish timestamp, kept as an association list in
least-recently-merged-first order. -/
structure FeedConfig where
  url : String
  rooms : List String
  pollIntervalSeconds : Nat
  nextPollTimestamp : Nat
  seenItems : List (String × Option Nat)
deriving DecidableEq, Repr

/-- Fetch failure taxonomy of spec section 7. -/
inductive FetchError where
  | transport : FetchError
  | status : Nat → FetchError
  | parse : FetchError
deriving DecidableEq, Repr

/-- One chat-send submitted to the chat-client collaborator. -/
structure SendCall where
  room : String
  body : String
deriving DecidableEq, Repr

/-- One per-(item, room) delivery failure (spec section 7,
DeliveryError). -/
structure DeliveryError where
  room : String
  itemId : String
deriving DecidableEq, Repr

/-- The external collaborators of one poll cycle: the Fetcher outcome per
feed URL (raw items, titles still carrying escaped references) and the
chat-client outcome per (room, body) send. -/
structure PollEnv where
  fetchResult : String → Except FetchError (List FeedItem)
  sendOk : String → String → Bool

/-- Modelled from the spec: the Fetcher decodes text entities in titles
before returning items (spec section 4.1). -/
def fetchDecode (raw : List FeedItem) : List FeedItem :=
  raw.map (fun it => { it with title := decodeEntities it.title })

/-- True when the candidate publish time is strictly newer than the
stored one; absent timestamps are never newer. -/
def newerThan (candidate stored : Option Nat) : Bool :=
  match candidate, stored with
  | some p, some t => decide (t < p)
  | _, _ => false

/-- Lookup of an item identifier in the seen-items association list. -/
def lookupSeen (seen : List (String × Option Nat)) (id : String) :
    Option (Option Nat) :=
  (seen.find? (fun p => p.1 == id)).map (fun p => p.2)

/-- Modelled from the spec: an item is new when its identifier is absent
from seenItems or present with a newer publishedAt (spec section 4.2). -/
def isNewItem (seen : List (String × Option Nat)) (it : FeedItem) : Bool :=
  match lookupSeen seen it.id with
  | none => true
  | some stored => newerThan it.publishedAt stored

/-- Modelled from the spec: the delta of a poll is the fetched items that
are new with respect to seenItems, in fetch order (spec section 4.2). -/
def computeDelta (seen : List (String × Option Nat)) (items : List FeedItem) :
    List FeedItem :=
  items.filter (fun it => isNewItem seen it)

/-- Insertion into the seen-items association list: any previous entry for
the identifier is dropped and the fresh entry appended at the newest end. -/
def insertSeen (seen : List (String × Option Nat)) (id : String)
    (ts : Option Nat) : List (String × Option Nat) :=
  seen.filter (fun p => !(p.1 == id)) ++ [(id, ts)]

/-- Modelled from the spec: after a successful fetch the identifiers of
the delta are merged into seenItems with their publish timestamps (spec
section 4.2). -/
def mergeSeen (seen : List (String × Option Nat)) (delta : List FeedItem) :
    List (String × Option Nat) :=
  delta.foldl (fun acc it => insertSeen acc it.id it.publishedAt) seen

/-- Modelled from the spec: the eviction cap on seenItems drops the oldest
entries once the seen-set exceeds the cap (spec section 3); entries are
kept oldest-first, so eviction drops from the front. -/
def applyEvictionCap (cap : Nat) (seen : List (String × Option Nat)) :
    List (String × Option Nat) :=
  seen.drop (seen.length - cap)

/-- Modelled from the spec: the Fan-out Dispatcher formats an item as a
human-readable notice combining title and link (spec section 4.3). -/
def formatItem (it : FeedItem) : String :=
  it.title ++ " ( " ++ it.link ++ " )"

/-- Modelled from the spec: delivery of one item to every configured room:
every room is attempted in order regardless of earlier failures, each
failed (item, room) send is collected individually (spec section 4.3). -/
def dispatchItem (sendOk : String → String → Bool) (it : FeedItem) :
    List String → List SendCall × List DeliveryError
  | [] => ([], [])
  | room :: rest =>
    let tail := dispatchItem sendOk it rest
    (SendCall.mk room (formatItem it) :: tail.1,
     if sendOk room (formatItem it) then tail.2
     else DeliveryError.mk room it.id :: tail.2)

/-- Modelled from the spec: delivery of the whole delta, item by item in
feed order, each item fanned out to every room; failures of earlier items
never suppress later sends (spec section 4.3). -/
def dispatchDelta (sendOk : String → String → Bool) (rooms : List String) :
    List FeedItem → List SendCall × List DeliveryError
  | [] => ([], [])
  | it :: rest =>
    let head := dispatchItem sendOk it rooms
    let tail := dispatchDelta sendOk rooms rest
    (head.1 ++ tail.1, head.2 ++ tail.2)

/-- Observable outcome of polling one feed: the updated config, the
chat-sends submitted, the collected delivery failures, and whether the
fetch failed (the condition reported to the logging collaborator). -/
structure PollOutcome where
  config : FeedConfig
  sends : List SendCall
  errors : List DeliveryError
  fetchFailed : Bool
deriving Repr

/-- Modelled from the spec: one poll cycle for a single feed, standing in
for the OnPoll core of the absent rssbot source (spec section 4.2). A feed
not yet due is left untouched; a failed fetch advances nextPollTimestamp
by the interval without touching seenItems and without fan-out; a
successful fetch decodes items, computes the delta, fans it out, merges
the delta into seenItems under the eviction cap and advances
nextPollTimestamp. -/
def pollFeed (cap : Nat) (env : PollEnv) (now : Nat) (f : FeedConfig) :
    PollOutcome :=
  if now < f.nextPollTimestamp then
    { config := f, sends := [], errors := [], fetchFailed := false }
  else
    match env.fetchResult f.url with
    | Except.error _ =>
      { config := { f with nextPollTimestamp := now + f.pollIntervalSeconds },
        sends := [], errors := [], fetchFailed := true }
    | Except.ok raw =>
      let items := fetchDecode raw
      let delta := computeDelta f.seenItems items
      let sent := dispatchDelta env.sendOk f.rooms delta
      { config :=
          { f with
            seenItems := applyEvictionCap cap (mergeSeen f.seenItems delta),
            nextPollTimestamp := now + f.pollIntervalSeconds },
        sends := sent.1, errors := sent.2, fetchFailed := false }

/-- Modelled from the spec: one tick evaluates every configured feed
independently (spec section 4.2). -/
def pollCycle (cap : Nat) (env : PollEnv) (now : Nat)
    (feeds : List FeedConfig) : List PollOutcome :=
  feeds.map (fun f => pollFeed cap env now f)

/-- Modelled from the spec: creation of a FeedConfig when a feed URL is
first added to the service configuration, standing in for the
configuration path of the absent rssbot source: nextPollTimestamp defaults
to the current time and seenItems starts empty (spec section 3). -/
def newFeedConfig (url : String) (rooms : List String)
    (interval now : Nat) : FeedConfig :=
  { url := url, rooms := rooms, pollIntervalSeconds := interval,
    nextPollTimestamp := now, seenItems := [] }

end Rssbot



namespace Weblate

theorem makeWeblateRequest_ok_inv {nr : Except String Unit}
    {dr : Except String HTTPResponse} {res : HTTPResponse}
    (h : makeWeblateRequest nr dr = Except.ok res) :
    200 ≤ res.statusCode ∧ res.statusCode < 300 := by
  match nr with
  | Except.error e => simp [makeWeblateRequest] at h
  | Except.ok _ =>
    match dr with
    | Except.error e => simp [makeWeblateRequest] at h
    | Except.ok r =>
      simp only [makeWeblateRequest] at h
      split at h
      · exact absurd h (by simp)
      · next hcond =>
        cases h
        push_neg at hcond
        omega

end Weblate

/-- C9: for every argument list whose length is not exactly one (the empty
list included), cmdWeblateStatus returns no message and the error
"Too many arguments"; for every one-element argument list it returns the
notice "Not yet implemented" regardless of the value of the argument. -/
theorem claim_C9 :
    (∀ args : List String, args.length ≠ 1 →
      Weblate.cmdWeblateStatus args = Except.error "Too many arguments") ∧
    (∀ args : List String, args.length = 1 →
      Weblate.cmdWeblateStatus args =
        Except.ok ⟨"m.notice", "Not yet implemented"⟩) := by
  constructor
  · intro args h
    simp [Weblate.cmdWeblateStatus, h]
  · intro args h
    simp [Weblate.cmdWeblateStatus, h]

/-- Witness for C9: the empty argument list is rejected with
"Too many arguments" and a one-element list gets the placeholder notice. -/
theorem claim_C9_witness :
    Weblate.cmdWeblateStatus [] = Except.error "Too many arguments" ∧
    Weblate.cmdWeblateStatus ["de"] =
      Except.ok ⟨"m.notice", "Not yet implemented"⟩ :=
  ⟨claim_C9.1 [] (by decide), claim_C9.2 ["de"] rfl⟩

/-- C8: whenever makeWeblateRequest returns a response without an error
the status code of the response lies in the 2xx range; and whenever the
underlying HTTP call yields a response whose status code is outside that
range, the function returns no response but an error whose message
embeds the decimal rendering of the status code. -/
theorem claim_C8 :
    (∀ (nr : Except String Unit) (dr : Except String Weblate.HTTPResponse)
      (res : Weblate.HTTPResponse),
      Weblate.makeWeblateRequest nr dr = Except.ok res →
      200 ≤ res.statusCode ∧ res.statusCode < 300) ∧
    (∀ res : Weblate.HTTPResponse,
      res.statusCode < 200 ∨ res.statusCode ≥ 300 →
      Weblate.makeWeblateRequest (Except.ok ()) (Except.ok res) =
        Except.error (Weblate.weblateErrorMsg res.statusCode) ∧
      ∃ before after, Weblate.weblateErrorMsg res.statusCode =
        before ++ toString res.statusCode ++ after) := by
  constructor
  · intro nr dr res h
    exact Weblate.makeWeblateRequest_ok_inv h
  · intro res h
    refine ⟨?_, "Failed to decode response (HTTP ", ")", ?_⟩
    · simp only [Weblate.makeWeblateRequest]
      rw [if_pos h]
    · rfl

/-- Witness for C8: a 204 response passes through and its code is within
the 2xx range; a 404 response is rejected with the error message carrying
the code. -/
theorem claim_C8_witness :
    (200 ≤ (Weblate.HTTPResponse.mk 204 "").statusCode ∧
      (Weblate.HTTPResponse.mk 204 "").statusCode < 300) ∧
    (Weblate.makeWeblateRequest (Except.ok ())
        (Except.ok (Weblate.HTTPResponse.mk 404 "missing")) =
      Except.error (Weblate.weblateErrorMsg 404) ∧
    ∃ before after, Weblate.weblateErrorMsg 404 =
      before ++ toString (404 : Int) ++ after) :=
  ⟨claim_C8.1 (Except.ok ()) (Except.ok (Weblate.HTTPResponse.mk 204 ""))
      (Weblate.HTTPResponse.mk 204 "") rfl,
   claim_C8.2 (Weblate.HTTPResponse.mk 404 "missing") (Or.inr (by decide))⟩

namespace Freifunk

/-- Tail of the comma join of the included keys: every included key
prefixed by the separator ", ". -/
def joinTail : List FFCommunity → String
  | [] => ""
  | c :: rest =>
    if c.hasNodeMaps then ", " ++ c.key ++ joinTail rest else joinTail rest

theorem string_append_ne_empty {a : String} (b : String) (h : a ≠ "") :
    a ++ b ≠ "" := by
  intro hc
  have hd : (a ++ b).data = "".data := congrArg String.data hc
  simp [String.data_append] at hd
  exact h (String.ext hd.1)

theorem foldl_foldStep_of_ne (dir : List FFCommunity) :
    ∀ acc : String, acc ≠ "" → dir.foldl foldStep acc = acc ++ joinTail dir := by
  induction dir with
  | nil =>
    intro acc _
    simp [joinTail, String.append_empty]
  | cons c rest ih =>
    intro acc h
    have hbeq : (acc == "") = false := beq_eq_false_iff_ne.mpr h
    by_cases hc : c.hasNodeMaps
    · have hstep : foldStep acc c = acc ++ ", " ++ c.key := by
        simp [foldStep, hc, hbeq]
      have hne : acc ++ ", " ++ c.key ≠ "" :=
        string_append_ne_empty c.key (string_append_ne_empty ", " h)
      calc (c :: rest).foldl foldStep acc
      _ = rest.foldl foldStep (acc ++ ", " ++ c.key) := by rw [List.foldl_cons, hstep]
      _ = acc ++ ", " ++ c.key ++ joinTail rest := ih _ hne
      _ = acc ++ joinTail (c :: rest) := by
            simp [joinTail, hc, String.append_assoc]
    · have hstep : foldStep acc c = acc := by simp [foldStep, hc]
      calc (c :: rest).foldl foldStep acc
      _ = rest.foldl foldStep acc := by rw [List.foldl_cons, hstep]
      _ = acc ++ joinTail rest := ih _ h
      _ = acc ++ joinTail (c :: rest) := by simp [joinTail, hc]

theorem joinComma_cons_includedKeys (dir : List FFCommunity) :
    ∀ k : String, joinComma (k :: includedKeys dir) = k ++ joinTail dir := by
  induction dir with
  | nil =>
    intro k
    simp [includedKeys, joinComma, joinTail, String.append_empty]
  | cons c rest ih =>
    intro k
    by_cases hc : c.hasNodeMaps
    · have hkeys : includedKeys (c :: rest) = c.key :: includedKeys rest := by
        simp [includedKeys, List.filter_cons, hc]
      rw [hkeys]
      calc joinComma (k :: c.key :: includedKeys rest)
      _ = k ++ ", " ++ joinComma (c.key :: includedKeys rest) := rfl
      _ = k ++ ", " ++ (c.key ++ joinTail rest) := by rw [ih c.key]
      _ = k ++ joinTail (c :: rest) := by
            simp [joinTail, hc, String.append_assoc]
    · have hkeys : includedKeys (c :: rest) = includedKeys rest := by
        simp [includedKeys, List.filter_cons, hc]
      rw [hkeys, ih k]
      simp [joinTail, hc]

end Freifunk

/-- C10 counterexample: for a directory whose first community carries
nodeMaps but has the empty string as key, the produced notice body is not
the ", "-join of the included keys (the code tests accumulator emptiness,
so a leading empty key is absorbed): the claim as literally stated fails. -/
theorem claim_C10_counterexample :
    Freifunk.getCommunities
        [Freifunk.FFCommunity.mk "" true, Freifunk.FFCommunity.mk "a" true] ≠
      ⟨"m.notice",
        Freifunk.joinComma (Freifunk.includedKeys
          [Freifunk.FFCommunity.mk "" true, Freifunk.FFCommunity.mk "a" true])⟩ := by
  decide

/-- C10 (amended): getCommunities returns a notice listing exactly the
community keys whose value carries a nodeMaps field, joined with ", " in
object order — provided every included key is a non-empty string (an
empty included key while nothing has accumulated yet is absorbed by the
code); communities lacking nodeMaps are omitted. -/
theorem claim_C10 (dir : List Freifunk.FFCommunity)
    (h : ∀ c ∈ dir, c.hasNodeMaps = true → c.key ≠ "") :
    Freifunk.getCommunities dir =
      ⟨"m.notice", Freifunk.joinComma (Freifunk.includedKeys dir)⟩ := by
  have main : ∀ d : List Freifunk.FFCommunity,
      (∀ c ∈ d, c.hasNodeMaps = true → c.key ≠ "") →
      Freifunk.communitiesFold d = Freifunk.joinComma (Freifunk.includedKeys d) := by
    intro d
    induction d with
    | nil => intro _; rfl
    | cons c rest ih =>
      intro hd
      by_cases hc : c.hasNodeMaps
      · have hkey : c.key ≠ "" := hd c (List.mem_cons_self c rest) hc
        have hkeys : Freifunk.includedKeys (c :: rest) =
            c.key :: Freifunk.includedKeys rest := by
          simp [Freifunk.includedKeys, List.filter_cons, hc]
        have hstep : Freifunk.foldStep "" c = c.key := by
          simp [Freifunk.foldStep, hc]
        calc Freifunk.communitiesFold (c :: rest)
        _ = rest.foldl Freifunk.foldStep c.key := by
              rw [Freifunk.communitiesFold, List.foldl_cons, hstep]
        _ = c.key ++ Freifunk.joinTail rest :=
              Freifunk.foldl_foldStep_of_ne rest c.key hkey
        _ = Freifunk.joinComma (c.key :: Freifunk.includedKeys rest) :=
              (Freifunk.joinComma_cons_includedKeys rest c.key).symm
        _ = Freifunk.joinComma (Freifunk.includedKeys (c :: rest)) := by rw [hkeys]
      · have hkeys : Freifunk.includedKeys (c :: rest) =
            Freifunk.includedKeys rest := by
          simp [Freifunk.includedKeys, List.filter_cons, hc]
        have hstep : Freifunk.foldStep "" c = "" := by
          simp [Freifunk.foldStep, hc]
        have hrest : ∀ c2 ∈ rest, c2.hasNodeMaps = true → c2.key ≠ "" :=
          fun c2 hm => hd c2 (List.mem_cons_of_mem c hm)
        calc Freifunk.communitiesFold (c :: rest)
        _ = rest.foldl Freifunk.foldStep "" := by
              rw [Freifunk.communitiesFold, List.foldl_cons, hstep]
        _ = Freifunk.joinComma (Freifunk.includedKeys rest) := ih hrest
        _ = Freifunk.joinComma (Freifunk.includedKeys (c :: rest)) := by rw [hkeys]
  rw [Freifunk.getCommunities, main dir h]

/-- Witness for C10 at a three-community directory with one community
lacking nodeMaps. -/
theorem claim_C10_witness :
    Freifunk.getCommunities
        [Freifunk.FFCommunity.mk "Aachen" true,
         Freifunk.FFCommunity.mk "Berlin" false,
         Freifunk.FFCommunity.mk "Chemnitz" true] =
      ⟨"m.notice",
        Freifunk.joinComma (Freifunk.includedKeys
          [Freifunk.FFCommunity.mk "Aachen" true,
           Freifunk.FFCommunity.mk "Berlin" false,
           Freifunk.FFCommunity.mk "Chemnitz" true])⟩ :=
  claim_C10
    [Freifunk.FFCommunity.mk "Aachen" true,
     Freifunk.FFCommunity.mk "Berlin" false,
     Freifunk.FFCommunity.mk "Chemnitz" true]
    (by decide)

namespace Rssbot

theorem pollFeed_not_due {now : Nat} {f : FeedConfig} (cap : Nat) (env : PollEnv)
    (h : now < f.nextPollTimestamp) :
    pollFeed cap env now f = ⟨f, [], [], false⟩ := by
  simp [pollFeed, h]

theorem pollFeed_fetch_error (cap : Nat) {env : PollEnv} {now : Nat}
    {f : FeedConfig} {e : FetchError} (hdue : f.nextPollTimestamp ≤ now)
    (hfetch : env.fetchResult f.url = Except.error e) :
    pollFeed cap env now f =
      ⟨{ f with nextPollTimestamp := now + f.pollIntervalSeconds },
        [], [], true⟩ := by
  have hnd : ¬ now < f.nextPollTimestamp := Nat.not_lt.mpr hdue
  simp [pollFeed, hnd, hfetch]

theorem pollFeed_fetch_ok (cap : Nat) {env : PollEnv} {now : Nat}
    {f : FeedConfig} {raw : List FeedItem} (hdue : f.nextPollTimestamp ≤ now)
    (hfetch : env.fetchResult f.url = Except.ok raw) :
    pollFeed cap env now f =
      ⟨{ f with
          seenItems := applyEvictionCap cap
            (mergeSeen f.seenItems (computeDelta f.seenItems (fetchDecode raw))),
          nextPollTimestamp := now + f.pollIntervalSeconds },
        (dispatchDelta env.sendOk f.rooms
          (computeDelta f.seenItems (fetchDecode raw))).1,
        (dispatchDelta env.sendOk f.rooms
          (computeDelta f.seenItems (fetchDecode raw))).2,
        false⟩ := by
  have hnd : ¬ now < f.nextPollTimestamp := Nat.not_lt.mpr hdue
  simp [pollFeed, hnd, hfetch]

theorem dispatchItem_calls (sendOk : String → String → Bool) (it : FeedItem)
    (rooms : List String) :
    (dispatchItem sendOk it rooms).1 =
      rooms.map (fun r => SendCall.mk r (formatItem it)) := by
  induction rooms with
  | nil => rfl
  | cons room rest ih => simp [dispatchItem, ih]

theorem dispatchItem_errors (sendOk : String → String → Bool) (it : FeedItem)
    (rooms : List String) :
    (dispatchItem sendOk it rooms).2 =
      (rooms.filter (fun r => !(sendOk r (formatItem it)))).map
        (fun r => DeliveryError.mk r it.id) := by
  induction rooms with
  | nil => rfl
  | cons room rest ih =>
    by_cases h : sendOk room (formatItem it)
    · simp [dispatchItem, List.filter_cons, h, ih]
    · simp [dispatchItem, List.filter_cons, h, ih]

theorem dispatchDelta_calls (sendOk : String → String → Bool)
    (rooms : List String) (delta : List FeedItem) :
    (dispatchDelta sendOk rooms delta).1 =
      delta.flatMap (fun it =>
        rooms.map (fun r => SendCall.mk r (formatItem it))) := by
  induction delta with
  | nil => rfl
  | cons it rest ih => simp [dispatchDelta, dispatchItem_calls, ih]

theorem dispatchDelta_errors (sendOk : String → String → Bool)
    (rooms : List String) (delta : List FeedItem) :
    (dispatchDelta sendOk rooms delta).2 =
      delta.flatMap (fun it =>
        (rooms.filter (fun r => !(sendOk r (formatItem it)))).map
          (fun r => DeliveryError.mk r it.id)) := by
  induction delta with
  | nil => rfl
  | cons it rest ih => simp [dispatchDelta, dispatchItem_errors, ih]

theorem dispatchDelta_calls_length (sendOk : String → String → Bool)
    (rooms : List String) (delta : List FeedItem) :
    (dispatchDelta sendOk rooms delta).1.length =
      delta.length * rooms.length := by
  induction delta with
  | nil => simp [dispatchDelta]
  | cons it rest ih =>
    simp [dispatchDelta, dispatchItem_calls, ih]
    ring

theorem applyEvictionCap_of_le {cap : Nat} {seen : List (String × Option Nat)}
    (h : seen.length ≤ cap) : applyEvictionCap cap seen = seen := by
  simp [applyEvictionCap, Nat.sub_eq_zero_of_le h]

theorem newerThan_self (x : Option Nat) : newerThan x x = false := by
  cases x with
  | none => rfl
  | some p => simp [newerThan]

theorem lookupSeen_insertSeen_self (seen : List (String × Option Nat))
    (k : String) (ts : Option Nat) :
    lookupSeen (insertSeen seen k ts) k = some ts := by
  induction seen with
  | nil => simp [lookupSeen, insertSeen, List.find?]
  | cons p rest ih =>
    by_cases h : p.1 == k
    · simpa [insertSeen, List.filter_cons, h] using ih
    · simp [lookupSeen, insertSeen, List.filter_cons, List.find?, h]

theorem lookupSeen_cons (p : String × Option Nat)
    (rest : List (String × Option Nat)) (k : String) :
    lookupSeen (p :: rest) k =
      if p.1 == k then some p.2 else lookupSeen rest k := by
  by_cases h : p.1 == k
  · simp [lookupSeen, List.find?, h]
  · simp [lookupSeen, List.find?, h]

theorem lookupSeen_insertSeen_other {k k2 : String} (hne : k2 ≠ k)
    (seen : List (String × Option Nat)) (ts : Option Nat) :
    lookupSeen (insertSeen seen k ts) k2 = lookupSeen seen k2 := by
  have hkk : (k == k2) = false := beq_eq_false_iff_ne.mpr (Ne.symm hne)
  induction seen with
  | nil => simp [lookupSeen, insertSeen, List.find?, hkk]
  | cons p rest ih =>
    by_cases h : p.1 == k
    · have hp1 : p.1 = k := beq_iff_eq.mp h
      have hstep : insertSeen (p :: rest) k ts = insertSeen rest k ts := by
        simp [insertSeen, List.filter_cons, h]
      rw [hstep, ih, lookupSeen_cons, hp1, hkk]
      simp
    · have hstep : insertSeen (p :: rest) k ts = p :: insertSeen rest k ts := by
        simp [insertSeen, List.filter_cons, h]
      rw [hstep, lookupSeen_cons, lookupSeen_cons, ih]

theorem lookupSeen_mergeSeen_of_not_mem {k : String} :
    ∀ (delta : List FeedItem) (seen : List (String × Option Nat)),
      (∀ it ∈ delta, it.id ≠ k) →
      lookupSeen (mergeSeen seen delta) k = lookupSeen seen k
  | [], _, _ => rfl
  | d :: rest, seen, h => by
    have h1 : d.id ≠ k := h d (List.mem_cons_self d rest)
    have h2 : ∀ it ∈ rest, it.id ≠ k :=
      fun it hm => h it (List.mem_cons_of_mem d hm)
    calc lookupSeen (mergeSeen seen (d :: rest)) k
    _ = lookupSeen (mergeSeen (insertSeen seen d.id d.publishedAt) rest) k := rfl
    _ = lookupSeen (insertSeen seen d.id d.publishedAt) k :=
          lookupSeen_mergeSeen_of_not_mem rest _ h2
    _ = lookupSeen seen k := lookupSeen_insertSeen_other (Ne.symm h1) seen _

theorem lookupSeen_mergeSeen_of_mem :
    ∀ (delta : List FeedItem) (seen : List (String × Option Nat)) (it : FeedItem),
      (delta.map FeedItem.id).Nodup → it ∈ delta →
      lookupSeen (mergeSeen seen delta) it.id = some it.publishedAt
  | [], _, it, _, hm => absurd hm (List.not_mem_nil it)
  | d :: rest, seen, it, hnd, hm => by
    rw [List.map_cons, List.nodup_cons] at hnd
    rcases List.mem_cons.mp hm with heq | hmem
    · subst heq
      have hrest : ∀ x ∈ rest, x.id ≠ it.id := by
        intro x hx hc
        exact hnd.1 (List.mem_map.mpr ⟨x, hx, hc⟩)
      calc lookupSeen (mergeSeen seen (it :: rest)) it.id
      _ = lookupSeen (mergeSeen (insertSeen seen it.id it.publishedAt) rest) it.id := rfl
      _ = lookupSeen (insertSeen seen it.id it.publishedAt) it.id :=
            lookupSeen_mergeSeen_of_not_mem rest _ hrest
      _ = some it.publishedAt := lookupSeen_insertSeen_self seen it.id it.publishedAt
    · exact lookupSeen_mergeSeen_of_mem rest _ it hnd.2 hmem

theorem isNewItem_mergeSeen_false {items : List FeedItem}
    (hids : (items.map FeedItem.id).Nodup) (seen : List (String × Option Nat))
    (it : FeedItem) (hit : it ∈ items) :
    isNewItem (mergeSeen seen (computeDelta seen items)) it = false := by
  by_cases hd : it ∈ computeDelta seen items
  · have hsub : List.Sublist ((computeDelta seen items).map FeedItem.id)
        (items.map FeedItem.id) :=
      List.Sublist.map FeedItem.id (List.filter_sublist items)
    have hnd : ((computeDelta seen items).map FeedItem.id).Nodup :=
      List.Nodup.sublist hsub hids
    have hl := lookupSeen_mergeSeen_of_mem (computeDelta seen items) seen it hnd hd
    simp [isNewItem, hl, newerThan_self]
  · have hnotnew : isNewItem seen it = false := by
      cases hb : isNewItem seen it with
      | false => rfl
      | true => exact absurd (List.mem_filter.mpr ⟨hit, hb⟩) hd
    have hnm : ∀ d ∈ computeDelta seen items, d.id ≠ it.id := by
      intro d hdm hc
      have hdi : d ∈ items := List.mem_of_mem_filter hdm
      have hde : d = it := List.inj_on_of_nodup_map hids hdi hit hc
      exact hd (hde ▸ hdm)
    have hl := lookupSeen_mergeSeen_of_not_mem (computeDelta seen items) seen hnm
    simp only [isNewItem] at hnotnew ⊢
    rw [hl]
    exact hnotnew

theorem computeDelta_mergeSeen_eq_nil {items : List FeedItem}
    (hids : (items.map FeedItem.id).Nodup) (seen : List (String × Option Nat)) :
    computeDelta (mergeSeen seen (computeDelta seen items)) items = [] := by
  apply List.filter_eq_nil_iff.mpr
  intro a ha
  simp [isNewItem_mergeSeen_false hids seen a ha]

theorem isNewItem_true_iff (seen : List (String × Option Nat)) (it : FeedItem) :
    isNewItem seen it = true ↔
      lookupSeen seen it.id = none ∨
        ∃ stored, lookupSeen seen it.id = some stored ∧
          newerThan it.publishedAt stored = true := by
  unfold isNewItem
  cases hl : lookupSeen seen it.id with
  | none => simp
  | some stored => simp

/-- The feed item of the reference test rssbot_test.go, as parsed before
entity decoding: the title still carries the numeric character
reference. -/
def majoraRawItem : FeedItem :=
  { id := "http://go.neb/rss/majoras-mask",
    title := "New Item: Majora&#8217;s Mask",
    link := "http://go.neb/rss/majoras-mask",
    publishedAt := none }

/-- Environment of the reference test: the feed serves the single raw
item and every chat send succeeds. -/
def majoraEnv : PollEnv :=
  { fetchResult := fun _ => Except.ok [majoraRawItem],
    sendOk := fun _ _ => true }

/-- The feed configuration of the reference test: one configured room and
nextPollTimestamp set to the current time. -/
def linksFeedConfig (now : Nat) : FeedConfig :=
  { url := "https://thehappymaskshop.hyrule",
    rooms := ["!linksroom:hyrule"],
    pollIntervalSeconds := 600,
    nextPollTimestamp := now,
    seenItems := [] }

/-- Environment whose every fetch fails with a transport error; used to
instantiate witnesses. -/
def failEnv : PollEnv :=
  { fetchResult := fun _ => Except.error FetchError.transport,
    sendOk := fun _ _ => true }

/-- Environment serving one fixed item with publish time three; every
send succeeds. Used to instantiate witnesses. -/
def oneItemEnv : PollEnv :=
  { fetchResult := fun _ => Except.ok [⟨"idW", "titleW", "http://w", some 3⟩],
    sendOk := fun _ _ => true }

end Rssbot

/-- C1: for the reference-test scenario — a feed whose single item is
titled with the numeric character reference for U+2019, configured with
exactly one room and nextPollTimestamp equal to the current time — one
poll cycle produces exactly one chat send, to that room, whose body
contains the decoded title with the U+2019 apostrophe character and
never the raw escape sequence. -/
theorem claim_C1 (now : Nat) :
    (Rssbot.pollFeed 100 Rssbot.majoraEnv now (Rssbot.linksFeedConfig now)).sends =
      [Rssbot.SendCall.mk "!linksroom:hyrule"
        "New Item: Majora’s Mask ( http://go.neb/rss/majoras-mask )"] ∧
    Rssbot.listInfixOf "New Item: Majora’s Mask".data
      "New Item: Majora’s Mask ( http://go.neb/rss/majoras-mask )".data = true ∧
    Rssbot.listInfixOf "&#8217;".data
      "New Item: Majora’s Mask ( http://go.neb/rss/majoras-mask )".data = false := by
  refine ⟨?_, by decide, by decide⟩
  have hdue : (Rssbot.linksFeedConfig now).nextPollTimestamp ≤ now := Nat.le_refl now
  have hfetch : Rssbot.majoraEnv.fetchResult (Rssbot.linksFeedConfig now).url =
      Except.ok [Rssbot.majoraRawItem] := rfl
  rw [Rssbot.pollFeed_fetch_ok 100 hdue hfetch]
  show (Rssbot.dispatchDelta Rssbot.majoraEnv.sendOk ["!linksroom:hyrule"]
    (Rssbot.computeDelta []
      (Rssbot.fetchDecode [Rssbot.majoraRawItem]))).1 = _
  decide

/-- C7: a newly added feed URL gets a FeedConfig whose nextPollTimestamp
defaults to the current time with empty seenItems, and polling before
nextPollTimestamp is reached leaves the feed untouched and sends nothing:
the first poll only fires once nextPollTimestamp is reached. -/
theorem claim_C7 (url : String) (rooms : List String) (interval now : Nat) :
    (Rssbot.newFeedConfig url rooms interval now).nextPollTimestamp = now ∧
    (Rssbot.newFeedConfig url rooms interval now).seenItems = [] ∧
    (∀ (cap : Nat) (env : Rssbot.PollEnv) (t : Nat) (f : Rssbot.FeedConfig),
      t < f.nextPollTimestamp →
      Rssbot.pollFeed cap env t f = ⟨f, [], [], false⟩) :=
  ⟨rfl, rfl, fun cap env _ _ h => Rssbot.pollFeed_not_due cap env h⟩

/-- Witness for C7: a feed added at time five starts with empty seenItems
and is not polled at time four. -/
theorem claim_C7_witness :
    (Rssbot.newFeedConfig "https://feed.example" [] 60 5).nextPollTimestamp = 5 ∧
    (Rssbot.newFeedConfig "https://feed.example" [] 60 5).seenItems = [] ∧
    Rssbot.pollFeed 100 Rssbot.failEnv 4
        (Rssbot.newFeedConfig "https://feed.example" [] 60 5) =
      ⟨Rssbot.newFeedConfig "https://feed.example" [] 60 5, [], [], false⟩ :=
  ⟨(claim_C7 "https://feed.example" [] 60 5).1,
   (claim_C7 "https://feed.example" [] 60 5).2.1,
   (claim_C7 "https://feed.example" [] 60 5).2.2 100 Rssbot.failEnv 4
     (Rssbot.newFeedConfig "https://feed.example" [] 60 5) (by decide)⟩

/-- C5: when a due feed's fetch fails, nextPollTimestamp is still
advanced by the poll interval, seenItems is left unchanged, no chat
message is sent for that feed, the failure is reported; and the feeds of
a tick are evaluated independently: the cycle outcome at every index is
exactly the standalone poll of the feed at that index, unaffected by any
other feed's failure. -/
theorem claim_C5 (cap : Nat) (env : Rssbot.PollEnv) (now : Nat)
    (f : Rssbot.FeedConfig) (e : Rssbot.FetchError)
    (hdue : f.nextPollTimestamp ≤ now)
    (hfetch : env.fetchResult f.url = Except.error e) :
    (Rssbot.pollFeed cap env now f).config.nextPollTimestamp =
      now + f.pollIntervalSeconds ∧
    (Rssbot.pollFeed cap env now f).config.seenItems = f.seenItems ∧
    (Rssbot.pollFeed cap env now f).sends = [] ∧
    (Rssbot.pollFeed cap env now f).fetchFailed = true ∧
    (∀ (feeds : List Rssbot.FeedConfig) (i : Nat),
      (Rssbot.pollCycle cap env now feeds).length = feeds.length ∧
      (Rssbot.pollCycle cap env now feeds)[i]? =
        (feeds[i]?).map (fun g => Rssbot.pollFeed cap env now g)) := by
  rw [Rssbot.pollFeed_fetch_error cap hdue hfetch]
  exact ⟨rfl, rfl, rfl, rfl,
    fun feeds i => ⟨by simp [Rssbot.pollCycle], by simp [Rssbot.pollCycle]⟩⟩

/-- Witness for C5: a failing fetch at time five advances the next poll
to five plus sixty, sends nothing, and the one-feed cycle at index zero
equals the standalone poll. -/
theorem claim_C5_witness :
    (Rssbot.pollFeed 10 Rssbot.failEnv 5
      (Rssbot.newFeedConfig "u" ["!a:hs"] 60 5)).config.nextPollTimestamp =
        5 + (Rssbot.newFeedConfig "u" ["!a:hs"] 60 5).pollIntervalSeconds ∧
    (Rssbot.pollFeed 10 Rssbot.failEnv 5
      (Rssbot.newFeedConfig "u" ["!a:hs"] 60 5)).sends = [] ∧
    (Rssbot.pollCycle 10 Rssbot.failEnv 5 [Rssbot.newFeedConfig "u" ["!a:hs"] 60 5])[0]? =
      (([Rssbot.newFeedConfig "u" ["!a:hs"] 60 5] :
          List Rssbot.FeedConfig)[0]?).map
        (fun g => Rssbot.pollFeed 10 Rssbot.failEnv 5 g) :=
  ⟨(claim_C5 10 Rssbot.failEnv 5 (Rssbot.newFeedConfig "u" ["!a:hs"] 60 5)
      Rssbot.FetchError.transport (by decide) rfl).1,
   (claim_C5 10 Rssbot.failEnv 5 (Rssbot.newFeedConfig "u" ["!a:hs"] 60 5)
      Rssbot.FetchError.transport (by decide) rfl).2.2.1,
   ((claim_C5 10 Rssbot.failEnv 5 (Rssbot.newFeedConfig "u" ["!a:hs"] 60 5)
      Rssbot.FetchError.transport (by decide) rfl).2.2.2.2
      [Rssbot.newFeedConfig "u" ["!a:hs"] 60 5] 0).2⟩

/-- C4: delivery-failure isolation in the fan-out dispatcher: the list of
attempted sends is independent of which sends fail, so one failed (item,
room) send never suppresses the sends to the remaining rooms of the same
item nor the following items; every (item, room) pair is attempted; and
the failures are collected individually, one DeliveryError per failed
pair, never as an aggregate aborting the batch. -/
theorem claim_C4 (sendOk sendOk2 : String → String → Bool)
    (rooms : List String) (delta : List Rssbot.FeedItem) :
    (Rssbot.dispatchDelta sendOk rooms delta).1 =
      (Rssbot.dispatchDelta sendOk2 rooms delta).1 ∧
    (∀ it ∈ delta, ∀ r ∈ rooms,
      Rssbot.SendCall.mk r (Rssbot.formatItem it) ∈
        (Rssbot.dispatchDelta sendOk rooms delta).1) ∧
    (Rssbot.dispatchDelta sendOk rooms delta).2 =
      delta.flatMap (fun it =>
        (rooms.filter (fun r => !(sendOk r (Rssbot.formatItem it)))).map
          (fun r => Rssbot.DeliveryError.mk r it.id)) := by
  refine ⟨?_, ?_, Rssbot.dispatchDelta_errors sendOk rooms delta⟩
  · rw [Rssbot.dispatchDelta_calls, Rssbot.dispatchDelta_calls]
  · intro it hit r hr
    rw [Rssbot.dispatchDelta_calls]
    exact List.mem_flatMap.mpr ⟨it, hit, List.mem_map.mpr ⟨r, hr, rfl⟩⟩

/-- Witness for C4: even when every send fails, the send to the second
room of the only item is still attempted. -/
theorem claim_C4_witness :
    Rssbot.SendCall.mk "!b:hs"
        (Rssbot.formatItem ⟨"idW", "titleW", "http://w", some 3⟩) ∈
      (Rssbot.dispatchDelta (fun _ _ => false) ["!a:hs", "!b:hs"]
        [⟨"idW", "titleW", "http://w", some 3⟩]).1 :=
  (claim_C4 (fun _ _ => false) (fun _ _ => true) ["!a:hs", "!b:hs"]
      [⟨"idW", "titleW", "http://w", some 3⟩]).2.1
    ⟨"idW", "titleW", "http://w", some 3⟩ (by decide) "!b:hs" (by decide)

/-- C3: fan-out completeness: a due feed configured with rooms A and B
whose delta is one new item produces exactly two chat sends, one per
room, in dispatch order; and in general the dispatcher emits exactly one
send per (item, room) pair — the send count is the product of the delta
and room counts and every pair's send is present. -/
theorem claim_C3 (cap : Nat) (env : Rssbot.PollEnv) (now : Nat)
    (f : Rssbot.FeedConfig) (raw : List Rssbot.FeedItem)
    (A B : String) (i : Rssbot.FeedItem)
    (hdue : f.nextPollTimestamp ≤ now)
    (hfetch : env.fetchResult f.url = Except.ok raw)
    (hrooms : f.rooms = [A, B])
    (hdelta : Rssbot.computeDelta f.seenItems (Rssbot.fetchDecode raw) = [i]) :
    (Rssbot.pollFeed cap env now f).sends =
      [Rssbot.SendCall.mk A (Rssbot.formatItem i),
       Rssbot.SendCall.mk B (Rssbot.formatItem i)] ∧
    (∀ (s : String → String → Bool) (rooms : List String)
      (delta : List Rssbot.FeedItem),
      (Rssbot.dispatchDelta s rooms delta).1.length =
        delta.length * rooms.length ∧
      ∀ it ∈ delta, ∀ r ∈ rooms,
        Rssbot.SendCall.mk r (Rssbot.formatItem it) ∈
          (Rssbot.dispatchDelta s rooms delta).1) := by
  constructor
  · rw [Rssbot.pollFeed_fetch_ok cap hdue hfetch]
    show (Rssbot.dispatchDelta env.sendOk f.rooms
      (Rssbot.computeDelta f.seenItems (Rssbot.fetchDecode raw))).1 = _
    rw [hdelta, hrooms]
    simp [Rssbot.dispatchDelta, Rssbot.dispatchItem]
  · intro s rooms delta
    refine ⟨Rssbot.dispatchDelta_calls_length s rooms delta, ?_⟩
    intro it hit r hr
    rw [Rssbot.dispatchDelta_calls]
    exact List.mem_flatMap.mpr ⟨it, hit, List.mem_map.mpr ⟨r, hr, rfl⟩⟩

/-- Witness for C3: a feed with two rooms and one new item produces
exactly the two sends, one per room. -/
theorem claim_C3_witness :
    (Rssbot.pollFeed 10 Rssbot.oneItemEnv 5
      ⟨"u", ["!a:hs", "!b:hs"], 60, 5, []⟩).sends =
      [Rssbot.SendCall.mk "!a:hs"
        (Rssbot.formatItem ⟨"idW", "titleW", "http://w", some 3⟩),
       Rssbot.SendCall.mk "!b:hs"
        (Rssbot.formatItem ⟨"idW", "titleW", "http://w", some 3⟩)] :=
  (claim_C3 10 Rssbot.oneItemEnv 5 ⟨"u", ["!a:hs", "!b:hs"], 60, 5, []⟩
      [⟨"idW", "titleW", "http://w", some 3⟩] "!a:hs" "!b:hs"
      ⟨"idW", "titleW", "http://w", some 3⟩
      (by decide) rfl rfl (by decide)).1

/-- C2: on a successful poll the delta is exactly the fetched items whose
identifier is absent from seenItems or present with a strictly newer
publish time; an item present with an unchanged publish timestamp is not
in the delta and every send of the poll carries the formatted body of a
delta item, so no message is sent for it; afterwards the delta is merged
into seenItems subject to the eviction cap and nextPollTimestamp is
advanced to now plus the poll interval. -/
theorem claim_C2 (cap : Nat) (env : Rssbot.PollEnv) (now : Nat)
    (f : Rssbot.FeedConfig) (raw : List Rssbot.FeedItem)
    (hdue : f.nextPollTimestamp ≤ now)
    (hfetch : env.fetchResult f.url = Except.ok raw) :
    (∀ it : Rssbot.FeedItem,
      it ∈ Rssbot.computeDelta f.seenItems (Rssbot.fetchDecode raw) ↔
        it ∈ Rssbot.fetchDecode raw ∧
          (Rssbot.lookupSeen f.seenItems it.id = none ∨
            ∃ stored, Rssbot.lookupSeen f.seenItems it.id = some stored ∧
              Rssbot.newerThan it.publishedAt stored = true)) ∧
    (∀ it ∈ Rssbot.fetchDecode raw,
      Rssbot.lookupSeen f.seenItems it.id = some it.publishedAt →
      it ∉ Rssbot.computeDelta f.seenItems (Rssbot.fetchDecode raw)) ∧
    (∀ c ∈ (Rssbot.pollFeed cap env now f).sends,
      ∃ it ∈ Rssbot.computeDelta f.seenItems (Rssbot.fetchDecode raw),
        c.body = Rssbot.formatItem it) ∧
    (Rssbot.pollFeed cap env now f).config.seenItems =
      Rssbot.applyEvictionCap cap
        (Rssbot.mergeSeen f.seenItems
          (Rssbot.computeDelta f.seenItems (Rssbot.fetchDecode raw))) ∧
    (Rssbot.pollFeed cap env now f).config.nextPollTimestamp =
      now + f.pollIntervalSeconds := by
  refine ⟨?_, ?_, ?_, ?_, ?_⟩
  · intro it
    rw [Rssbot.computeDelta, List.mem_filter, Rssbot.isNewItem_true_iff]
  · intro it hmem hl hc
    have hnew : Rssbot.isNewItem f.seenItems it = true :=
      (List.mem_filter.mp hc).2
    rcases (Rssbot.isNewItem_true_iff f.seenItems it).mp hnew with
      hnone | ⟨stored, hsome, hn⟩
    · rw [hl] at hnone
      exact Option.noConfusion hnone
    · rw [hl] at hsome
      injection hsome with he
      rw [← he, Rssbot.newerThan_self] at hn
      exact Bool.noConfusion hn
  · rw [Rssbot.pollFeed_fetch_ok cap hdue hfetch]
    show ∀ c ∈ (Rssbot.dispatchDelta env.sendOk f.rooms
      (Rssbot.computeDelta f.seenItems (Rssbot.fetchDecode raw))).1, _
    rw [Rssbot.dispatchDelta_calls]
    intro c hc
    rcases List.mem_flatMap.mp hc with ⟨it, hit, hmap⟩
    rcases List.mem_map.mp hmap with ⟨r, _, heq⟩
    exact ⟨it, hit, by rw [← heq]⟩
  · rw [Rssbot.pollFeed_fetch_ok cap hdue hfetch]
  · rw [Rssbot.pollFeed_fetch_ok cap hdue hfetch]

/-- Witness for C2: an item whose identifier is stored in seenItems with
its unchanged publish time is not in the delta, and the poll advances
nextPollTimestamp by the interval. -/
theorem claim_C2_witness :
    (⟨"idW", "titleW", "http://w", some 3⟩ : Rssbot.FeedItem) ∉
      Rssbot.computeDelta
        (Rssbot.FeedConfig.mk "u" ["!a:hs"] 60 5 [("idW", some 3)]).seenItems
        (Rssbot.fetchDecode [⟨"idW", "titleW", "http://w", some 3⟩]) ∧
    (Rssbot.pollFeed 10 Rssbot.oneItemEnv 5
      (Rssbot.FeedConfig.mk "u" ["!a:hs"] 60 5
        [("idW", some 3)])).config.nextPollTimestamp =
      5 + (Rssbot.FeedConfig.mk "u" ["!a:hs"] 60 5
        [("idW", some 3)]).pollIntervalSeconds :=
  ⟨(claim_C2 10 Rssbot.oneItemEnv 5
      (Rssbot.FeedConfig.mk "u" ["!a:hs"] 60 5 [("idW", some 3)])
      [⟨"idW", "titleW", "http://w", some 3⟩] (by decide) rfl).2.1
      ⟨"idW", "titleW", "http://w", some 3⟩ (by decide) (by decide),
   (claim_C2 10 Rssbot.oneItemEnv 5
      (Rssbot.FeedConfig.mk "u" ["!a:hs"] 60 5 [("idW", some 3)])
      [⟨"idW", "titleW", "http://w", some 3⟩] (by decide) rfl).2.2.2.2⟩

/-- C6: poll idempotence: when the upstream feed keeps returning the same
items (with pairwise distinct identifiers, as feed item identifiers are
unique) and the merged seen-set stays within the eviction cap, a second
poll after a first successful poll produces zero additional chat sends. -/
theorem claim_C6 (cap : Nat) (env : Rssbot.PollEnv) (now1 now2 : Nat)
    (f : Rssbot.FeedConfig) (raw : List Rssbot.FeedItem)
    (hfetch : env.fetchResult f.url = Except.ok raw)
    (hids : ((Rssbot.fetchDecode raw).map Rssbot.FeedItem.id).Nodup)
    (hdue1 : f.nextPollTimestamp ≤ now1)
    (hcap : (Rssbot.mergeSeen f.seenItems
        (Rssbot.computeDelta f.seenItems (Rssbot.fetchDecode raw))).length ≤ cap) :
    (Rssbot.pollFeed cap env now2
      (Rssbot.pollFeed cap env now1 f).config).sends = [] := by
  have hseen : (Rssbot.pollFeed cap env now1 f).config.seenItems =
      Rssbot.mergeSeen f.seenItems
        (Rssbot.computeDelta f.seenItems (Rssbot.fetchDecode raw)) := by
    rw [Rssbot.pollFeed_fetch_ok cap hdue1 hfetch]
    exact Rssbot.applyEvictionCap_of_le hcap
  have hurl : (Rssbot.pollFeed cap env now1 f).config.url = f.url := by
    rw [Rssbot.pollFeed_fetch_ok cap hdue1 hfetch]
  by_cases hd2 : now2 < (Rssbot.pollFeed cap env now1 f).config.nextPollTimestamp
  · rw [Rssbot.pollFeed_not_due cap env hd2]
  · have hdue2 : (Rssbot.pollFeed cap env now1 f).config.nextPollTimestamp ≤ now2 :=
      Nat.le_of_not_lt hd2
    have hfetch2 : env.fetchResult (Rssbot.pollFeed cap env now1 f).config.url =
        Except.ok raw := by rw [hurl]; exact hfetch
    rw [Rssbot.pollFeed_fetch_ok cap hdue2 hfetch2]
    show (Rssbot.dispatchDelta env.sendOk _
      (Rssbot.computeDelta (Rssbot.pollFeed cap env now1 f).config.seenItems
        (Rssbot.fetchDecode raw))).1 = []
    rw [hseen, Rssbot.computeDelta_mergeSeen_eq_nil hids f.seenItems]
    rfl

/-- Witness for C6: polling the one-item feed a second time after a
first successful poll sends nothing. -/
theorem claim_C6_witness :
    (Rssbot.pollFeed 10 Rssbot.oneItemEnv 70
      (Rssbot.pollFeed 10 Rssbot.oneItemEnv 5
        (Rssbot.newFeedConfig "u" ["!a:hs"] 60 5)).config).sends = [] :=
  claim_C6 10 Rssbot.oneItemEnv 5 70 (Rssbot.newFeedConfig "u" ["!a:hs"] 60 5)
    [⟨"idW", "titleW", "http://w", some 3⟩] rfl (by decide) (by decide) (by decide)

end GoNeb
